import Mathlib

/-!
Verification of the Cloud-Native RAG chatbot frontend
(`src/frontend/src/lib/api.ts`, `src/frontend/src/app/page.tsx`,
`src/frontend/src/components/FileUpload.tsx`) together with the
spec-described backend components (chunker, vector store, stats,
retrieval-answer event pipeline) that do not appear under `src/`.

Shallow embedding conventions:
- an HTTP `Response` as observed by the frontend is modelled by `Resp α`:
  its numeric status, the parse outcome of its body on the error path
  (`errBody`), and the already-parsed payload used on the success path
  (`okBody`);
- JavaScript `response.ok` is `200 <= status < 300`;
- each exported client function of `api.ts` becomes a Lean function from
  the responses the network would return to the pair of (its promise
  outcome, the list of endpoints it actually contacted, in order);
- the server-sent event stream is modelled post-parsing as a list of
  `StreamEvent`; JSON lines that fail to parse become `.malformed`.
-/

namespace Chatbot

/-- Chat message role, from the `Message` interface of `api.ts`. -/
inductive Role where
  | user
  | assistant
  deriving DecidableEq, Repr

/-- The `Message` interface of `api.ts`: `{role, content}`. -/
structure Message where
  role : Role
  content : String
  deriving DecidableEq, Repr

/-- The `IngestResponse` interface of `api.ts`. -/
structure IngestResponse where
  success : Bool
  document_id : String
  filename : String
  chunks_created : Nat
  message : String
  deriving DecidableEq, Repr

/-- The `Document` interface of `api.ts` (listing entry). -/
structure DocumentInfo where
  id : String
  name : String
  created_at : String
  chunks : Nat
  deriving DecidableEq, Repr

/-- The `Stats` interface of `api.ts`. -/
structure Stats where
  documents : Nat
  chunks : Nat
  deriving DecidableEq, Repr

/-- The `DeleteResponse` interface of `api.ts`. -/
structure DeleteResponse where
  success : Bool
  document_id : String
  chunks_deleted : Nat
  deriving DecidableEq, Repr

/-- Which backend endpoint family a request went to:
the versioned `/api/v1` route or the legacy `/api` route. -/
inductive Endpoint where
  | v1
  | legacy
  deriving DecidableEq, Repr

/-- Model of a `fetch` response as the client observes it: the HTTP
status, the error-path body (`none` when `response.json()` rejects,
`some none` when it parses but has no usable `detail` field,
`some (some d)` when it parses to `{detail: d}`), and the success-path
payload `okBody` (the value `response.json()` resolves to when the
client takes the `ok` branch). -/
structure Resp (α : Type) where
  status : Nat
  errBody : Option (Option String)
  okBody : α
  deriving DecidableEq, Repr

/-- JavaScript `response.ok`: status in the range 200..299. -/
def Resp.isOk {α : Type} (r : Resp α) : Bool :=
  decide (200 ≤ r.status) && decide (r.status < 300)

/-- The error message the client throws for a non-ok response:
`response.json().catch(() => ({detail: fallbackCatch}))` followed by
`error.detail || fallbackOr`.  An empty string is falsy in JavaScript,
so an empty `detail` also falls through to `fallbackOr`. -/
def errMessage (errBody : Option (Option String)) (fallbackCatch fallbackOr : String) : String :=
  match errBody with
  | none => if fallbackCatch = "" then fallbackOr else fallbackCatch
  | some none => fallbackOr
  | some (some d) => if d = "" then fallbackOr else d

/-- One event of the chat server-sent stream, after the client has split
the text into lines, stripped the `data: ` prefix and run `JSON.parse`:
the three documented kinds, the error kind the spec describes for
generation failures, and `.malformed` for lines whose JSON parse failed
(the client catches and ignores those). -/
inductive StreamEvent where
  | sources (docs : List String)
  | content (text : String)
  | done
  | error (msg : String)
  | malformed
  deriving DecidableEq, Repr

/-- A callback invocation made by `sendChatMessage` while consuming the
stream: `onSources` or `onContent`, with its argument. -/
inductive Call where
  | onSources (docs : List String)
  | onContent (text : String)
  deriving DecidableEq, Repr

/-- The stream-consuming loop of `sendChatMessage` (`api.ts` lines
116-143): for each parsed event, `type === "content"` invokes
`onContent`, `type === "sources"` invokes `onSources`, `type === "done"`
does nothing, and every other event — including `error` events and
unparseable lines — matches no branch and is silently skipped.
Returns the callback invocations in the order they are made. -/
def consumeStream : List StreamEvent → List Call
  | [] => []
  | .content d :: rest => .onContent d :: consumeStream rest
  | .sources s :: rest => .onSources s :: consumeStream rest
  | .done :: rest => consumeStream rest
  | .error _ :: rest => consumeStream rest
  | .malformed :: rest => consumeStream rest

/-- The JSON body `sendChatMessage` posts to `/chat`. -/
structure ChatRequest where
  message : String
  history : List Message
  deriving DecidableEq, Repr

/-- Function `uploadDocument` (`api.ts` lines 46-70): POST `/api/v1/ingest`; on
status 404 retry POST `/api/ingest`; then throw on a non-ok response,
otherwise resolve with the parsed `IngestResponse` body.  Returns the
promise outcome together with the endpoints contacted, in order. -/
def uploadDocument (v1 legacy : Resp IngestResponse) :
    Except String IngestResponse × List Endpoint :=
  if v1.status = 404 then
    if legacy.isOk then (.ok legacy.okBody, [.v1, .legacy])
    else (.error (errMessage legacy.errBody "Upload failed" "Failed to upload document"),
          [.v1, .legacy])
  else
    if v1.isOk then (.ok v1.okBody, [.v1])
    else (.error (errMessage v1.errBody "Upload failed" "Failed to upload document"), [.v1])

/-- Function `sendChatMessage` (`api.ts` lines 75-143): POST `/api/v1/chat` with
body `{message, history: history.slice(-10)}`; on status 404 retry
`/api/chat` with the same body shape (`history.slice(-10)` is written
out again at the second call site); throw on a non-ok response or a
missing body, otherwise run the stream-consuming loop.  JavaScript
`slice(-10)` keeps the last `min(10, length)` elements, which is
`List.drop (length - 10)`.  Returns the promise outcome (carrying the
callback trace on success) and the list of requests actually sent,
each with the body it carried. -/
def sendChatMessage (message : String) (history : List Message)
    (v1 legacy : Resp (Option (List StreamEvent))) :
    Except String (List Call) × List (Endpoint × ChatRequest) :=
  let body1 : ChatRequest := ⟨message, history.drop (history.length - 10)⟩
  if v1.status = 404 then
    let body2 : ChatRequest := ⟨message, history.drop (history.length - 10)⟩
    let reqs : List (Endpoint × ChatRequest) := [(.v1, body1), (.legacy, body2)]
    if legacy.isOk then
      match legacy.okBody with
      | none => (.error "No response body", reqs)
      | some evs => (.ok (consumeStream evs), reqs)
    else
      (.error (errMessage legacy.errBody "Chat failed" "Failed to get response"), reqs)
  else
    let reqs : List (Endpoint × ChatRequest) := [(.v1, body1)]
    if v1.isOk then
      match v1.okBody with
      | none => (.error "No response body", reqs)
      | some evs => (.ok (consumeStream evs), reqs)
    else
      (.error (errMessage v1.errBody "Chat failed" "Failed to get response"), reqs)

/-- Function `listDocuments` (`api.ts` lines 148-162): GET `/api/v1/documents`;
on status 404 retry GET `/api/documents`; throw on a non-ok response,
otherwise resolve with the `documents` field of the body. -/
def listDocuments (v1 legacy : Resp (List DocumentInfo)) :
    Except String (List DocumentInfo) × List Endpoint :=
  if v1.status = 404 then
    if legacy.isOk then (.ok legacy.okBody, [.v1, .legacy])
    else (.error (errMessage legacy.errBody "Failed to list documents" "Failed to list documents"),
          [.v1, .legacy])
  else
    if v1.isOk then (.ok v1.okBody, [.v1])
    else (.error (errMessage v1.errBody "Failed to list documents" "Failed to list documents"),
          [.v1])

/-- Function `deleteDocument` (`api.ts` lines 167-178): DELETE
`/api/v1/documents/{id}` only — no legacy fallback; throw on a non-ok
response, otherwise resolve with the parsed `DeleteResponse`. -/
def deleteDocument (r : Resp DeleteResponse) :
    Except String DeleteResponse × List Endpoint :=
  if r.isOk then (.ok r.okBody, [.v1])
  else (.error (errMessage r.errBody "Failed to delete document" "Failed to delete document"),
        [.v1])

/-- Function `getStats` (`api.ts` lines 183-192): GET `/api/v1/stats` only — no
legacy fallback; throw on a non-ok response, otherwise resolve with the
parsed `Stats`. -/
def getStats (r : Resp Stats) : Except String Stats × List Endpoint :=
  if r.isOk then (.ok r.okBody, [.v1])
  else (.error (errMessage r.errBody "Failed to get stats" "Failed to get stats"), [.v1])

/-! ## Backend components modelled from the spec

The repository ships only the frontend under `src/`; the backend
(chunker, vector store, retrieval-answer pipeline) is described by the
spec and the README.  The definitions below are therefore modelled from
the spec, faithful to its wording, and the claims about them are
settled against these models. -/

/-- Modelled from the spec: the sliding-window walk of the chunker
(spec 4.1), the backend chunking code being absent from `src/`.  The
window has width `size` and its start advances by `step = size -
overlap` each iteration; the walk stops once the window reaches the end
of the text, so the final segment may be shorter than `size`.  Empty
text yields no segments. -/
def chunkWalk (size step : Nat) (hstep : 0 < step) (t : List Char) : List (List Char) :=
  if t.length ≤ size then (if t = [] then [] else [t])
  else t.take size :: chunkWalk size step hstep (t.drop step)
termination_by t.length
decreasing_by
  simp only [List.length_drop]
  omega

/-- Modelled from the spec: the chunker entry point (spec 4.1), the
backend chunking code being absent from `src/`.  `overlap >= size` is a
configuration error rejected before any processing; otherwise the text
is split by the sliding-window walk with step `size - overlap`. -/
def chunkText (size overlap : Nat) (t : List Char) : Except String (List (List Char)) :=
  if h : size ≤ overlap then .error "chunk overlap must be smaller than chunk size"
  else .ok (chunkWalk size (size - overlap) (by omega) t)

/-- A stored chunk row of the vector store model: owning document id,
sequence index, and text.  (The embedding vector plays no role in the
deletion and stats claims and is omitted.) -/
structure StoreChunk where
  docId : String
  seq : Nat
  text : String
  deriving DecidableEq, Repr

/-- A stored document row of the vector store model. -/
structure StoreDoc where
  id : String
  name : String
  createdAt : Nat
  deriving DecidableEq, Repr

/-- Modelled from the spec: the persistent state of the vector store
(spec 4.3), the backend storage code being absent from `src/` —
documents and the chunks they own. -/
structure Store where
  docs : List StoreDoc
  chunks : List StoreChunk
  deriving DecidableEq, Repr

/-- The error kinds of the store operations named by the spec. -/
inductive StoreError where
  | notFound
  deriving DecidableEq, Repr

/-- Result record of a successful `delete_document`, per the spec
(`{document_id, chunks_deleted}`). -/
structure DeleteResult where
  document_id : String
  chunks_deleted : Nat
  deriving DecidableEq, Repr

/-- Modelled from the spec: `delete_document(document_id)` of the
vector store (spec 4.3), the backend storage code being absent from
`src/` — removes the document and all its chunks atomically, returning
`{document_id, chunks_deleted}`; fails with `NotFoundError` when the id
does not exist, leaving the store untouched. -/
def deleteDocumentStore (docId : String) (s : Store) :
    Except StoreError (DeleteResult × Store) :=
  if s.docs.any (fun d => d.id = docId) then
    .ok (⟨docId, (s.chunks.filter (fun c => c.docId = docId)).length⟩,
         ⟨s.docs.filter (fun d => d.id ≠ docId),
          s.chunks.filter (fun c => c.docId ≠ docId)⟩)
  else
    .error .notFound

/-- Modelled from the spec: `stats()` of the vector store (spec 4.3),
the backend storage code being absent from `src/` — a pure read
returning the total document count and total chunk count, paired with
the (unchanged) store state it leaves behind. -/
def statsStore (s : Store) : Stats × Store :=
  (⟨s.docs.length, s.chunks.length⟩, s)

/-- Modelled from the spec: the event stream a successful chat request
produces (spec 4.5 step 5), the backend pipeline code being absent from
`src/` — a single `sources` event, then one `content` event per
generated fragment in generation order, then one terminal `done`. -/
def ragStream (docNames fragments : List String) : List StreamEvent :=
  .sources docNames :: (fragments.map .content ++ [.done])

/-- Modelled from the spec: the event stream of a chat request whose
generation call fails mid-stream (spec 4.5 failure semantics), the
backend pipeline code being absent from `src/` — the `sources` event,
the content fragments already emitted, then an `error` event, and it
stops: no `done` is emitted after an error. -/
def ragStreamFailing (docNames fragments : List String) (msg : String) : List StreamEvent :=
  .sources docNames :: (fragments.map .content ++ [.error msg])

/-! ## Frontend UI components

`page.tsx` (the chat page) and `FileUpload.tsx` (the upload widget).
JavaScript string operations are modelled on the character list of the
Lean string: `trim` as dropping whitespace from both ends,
`toLowerCase` as mapping `Char.toLower`, `endsWith` as a suffix test. -/

/-- The whitespace characters recognised by the model of JavaScript
`String.prototype.trim`. -/
def jsWhitespace (c : Char) : Bool :=
  c = ' ' || c = '\t' || c = '\n' || c = '\r'

/-- Model of JavaScript `s.trim()`: drop whitespace characters from the
front and from the back of the string. -/
def jsTrim (s : String) : String :=
  String.mk (List.rdropWhile jsWhitespace (s.data.dropWhile jsWhitespace))

/-- Model of JavaScript `name.toLowerCase().endsWith(".pdf")` from
`processFile` in `FileUpload.tsx`. -/
def lowerEndsWithPdf (name : String) : Bool :=
  List.isSuffixOf ".pdf".data (name.data.map Char.toLower)

/-- What `processFile` decides to do with one file: record an error
entry without any network request, or invoke `uploadDocument`. -/
inductive FileDecision where
  | reject (msg : String)
  | upload
  deriving DecidableEq, Repr

/-- The guard logic of `processFile` in `FileUpload.tsx` (lines 58-95):
a file whose lowercased name does not end in `.pdf` is rejected with
`Only PDF files are supported`; a file larger than `50 * 1024 * 1024`
bytes is rejected with `File size exceeds 50MB limit`; otherwise
`uploadDocument(file)` is called. -/
def processFile (name : String) (size : Nat) : FileDecision :=
  if !(lowerEndsWithPdf name) then .reject "Only PDF files are supported"
  else if size > 50 * 1024 * 1024 then .reject "File size exceeds 50MB limit"
  else .upload

/-- The state of the chat page (`page.tsx`) that the conversation
invariant concerns: the message list and the in-flight flag. -/
structure UIState where
  messages : List Message
  isLoading : Bool
  deriving DecidableEq, Repr

/-- The events that drive the chat page state: a form submit with the
current input text, one streamed content chunk, a stream that finishes,
and a request that fails (the `catch` branch of `handleSubmit`). -/
inductive UIEvent where
  | submit (input : String)
  | streamChunk (text : String)
  | streamDone
  | streamError
  deriving DecidableEq, Repr

/-- The `onContent` handler of `handleSubmit` (`page.tsx` lines 52-61):
append the chunk to the content of the last message when that message
has the assistant role, leave the list unchanged otherwise. -/
def appendToLast (chunk : String) : List Message → List Message
  | [] => []
  | [m] => if m.role = .assistant then [⟨m.role, m.content ++ chunk⟩] else [m]
  | m :: rest => m :: appendToLast chunk rest

/-- One step of the chat page state machine, from `handleSubmit` in
`page.tsx` (lines 32-74).  `submit`: when the trimmed input is empty or
a request is in flight, do nothing (the guard on line 34, matching the
submit button disabled condition on line 195); otherwise append the
user message with the trimmed input and the empty assistant
placeholder, and mark a request in flight.  `streamChunk`: the
`onContent` handler.  `streamDone`: the `finally` branch clears the
in-flight flag.  `streamError`: the `catch` branch removes every
message whose content is the empty string, and `finally` clears the
in-flight flag. -/
def uiStep (st : UIState) (e : UIEvent) : UIState :=
  match e with
  | .submit input =>
      if jsTrim input = "" || st.isLoading then st
      else ⟨st.messages ++ [⟨.user, jsTrim input⟩, ⟨.assistant, ""⟩], true⟩
  | .streamChunk t => ⟨appendToLast t st.messages, st.isLoading⟩
  | .streamDone => ⟨st.messages, false⟩
  | .streamError => ⟨st.messages.filter (fun m => m.content ≠ ""), false⟩

/-- The chat page starts with no messages and no request in flight
(`useState` initialisers in `page.tsx`). -/
def initialUIState : UIState := ⟨[], false⟩

/-- The chat page state after a sequence of events. -/
def runUI (evs : List UIEvent) : UIState := evs.foldl uiStep initialUIState

/-- The conversation invariant of the chat page: every user-role
message has non-empty trimmed content. -/
def userMessagesNonempty (ms : List Message) : Prop :=
  ∀ m ∈ ms, m.role = .user → jsTrim m.content ≠ ""

/-! ## Helper lemmas -/

/-- The stream-consuming loop processes events one by one, so its
callback trace distributes over concatenation of event lists. -/
theorem consumeStream_append (a b : List StreamEvent) :
    consumeStream (a ++ b) = consumeStream a ++ consumeStream b := by
  induction a with
  | nil => rfl
  | cons e rest ih => cases e <;> simp [consumeStream, ih]

/-- Consuming a pure content-event list invokes `onContent` once per
fragment, in order. -/
theorem consumeStream_contents (f : List String) :
    consumeStream (f.map .content) = f.map .onContent := by
  induction f with
  | nil => rfl
  | cons x xs ih => simp [consumeStream, ih]

/-- The requests `sendChatMessage` sends: the v1 endpoint with the
capped history, then the legacy endpoint with the same body exactly
when the v1 response had status 404. -/
theorem sendChatMessage_trace (message : String) (history : List Message)
    (v1 legacy : Resp (Option (List StreamEvent))) :
    (sendChatMessage message history v1 legacy).2 =
      if v1.status = 404 then
        [(Endpoint.v1, ⟨message, history.drop (history.length - 10)⟩),
         (Endpoint.legacy, ⟨message, history.drop (history.length - 10)⟩)]
      else
        [(Endpoint.v1, ⟨message, history.drop (history.length - 10)⟩)] := by
  unfold sendChatMessage
  by_cases h : v1.status = 404 <;> simp only [h, if_true, if_false, reduceIte] <;>
    (repeat' split) <;> rfl

/-! ## Claim theorems -/

/-- C1: every call to `sendChatMessage`, for any message and history,
sends a request body whose history is at most the last 10 turns of the
supplied history in their original order (a suffix), and this cap is
the same on the v1 attempt and on the legacy fallback attempt. -/
theorem sendChatMessage_history_cap (message : String) (history : List Message)
    (v1 legacy : Resp (Option (List StreamEvent))) :
    ∀ req ∈ (sendChatMessage message history v1 legacy).2,
      req.2.message = message ∧
      req.2.history = history.drop (history.length - 10) ∧
      req.2.history.length ≤ 10 ∧
      req.2.history <:+ history := by
  intro req hreq
  rw [sendChatMessage_trace] at hreq
  have h1 : (history.drop (history.length - 10)).length ≤ 10 := by
    simp only [List.length_drop]
    omega
  have h2 := List.drop_suffix (history.length - 10) history
  by_cases h : v1.status = 404 <;> simp [h] at hreq
  · rcases hreq with rfl | rfl <;> exact ⟨rfl, rfl, h1, h2⟩
  · subst hreq
    exact ⟨rfl, rfl, h1, h2⟩

/-- Witness for C1 at a concrete input: a 12-turn history is capped to
its last 10 turns on the v1 request. -/
theorem sendChatMessage_history_cap_witness :
    ((Endpoint.v1, (⟨"q", List.replicate 10 ⟨.user, "m"⟩⟩ : ChatRequest)) ∈
        (sendChatMessage "q" (List.replicate 12 ⟨.user, "m"⟩)
          ⟨200, none, some []⟩ ⟨200, none, some []⟩).2) ∧
      (List.replicate 10 (Message.mk .user "m")).length ≤ 10 := by
  have hmem : (Endpoint.v1, (⟨"q", List.replicate 10 ⟨.user, "m"⟩⟩ : ChatRequest)) ∈
      (sendChatMessage "q" (List.replicate 12 ⟨.user, "m"⟩)
        ⟨200, none, some []⟩ ⟨200, none, some []⟩).2 := by decide
  have h := sendChatMessage_history_cap "q" (List.replicate 12 ⟨.user, "m"⟩)
    ⟨200, none, some []⟩ ⟨200, none, some []⟩ _ hmem
  exact ⟨hmem, h.2.2.1⟩

/-- C2: a successful chat stream opens with its single `sources` event,
closes with `done`, and the client stream consumer therefore invokes
`onSources` once before any `onContent`, with the `onContent` calls in
generation order. -/
theorem chat_event_order (docs fragments : List String) :
    (ragStream docs fragments).head? = some (.sources docs) ∧
    (ragStream docs fragments).getLast? = some .done ∧
    (ragStream docs fragments).countP
        (fun e => match e with | .sources _ => true | _ => false) = 1 ∧
    consumeStream (ragStream docs fragments) =
      .onSources docs :: fragments.map .onContent := by
  refine ⟨rfl, ?_, ?_, ?_⟩
  · show (StreamEvent.sources docs :: (fragments.map .content ++ [.done])).getLast? = _
    rw [← List.cons_append, List.getLast?_concat]
  · show List.countP _ (StreamEvent.sources docs :: (fragments.map .content ++ [.done])) = 1
    rw [List.countP_cons_of_pos _ _ (by rfl)]
    rw [List.countP_append]
    have hz : (fragments.map StreamEvent.content).countP
        (fun e => match e with | .sources _ => true | _ => false) = 0 := by
      rw [List.countP_eq_zero]
      intro a ha
      obtain ⟨t, _, rfl⟩ := List.mem_map.mp ha
      simp
    simp [hz]
  · show consumeStream (StreamEvent.sources docs :: (fragments.map .content ++ [.done])) = _
    rw [consumeStream, consumeStream_append, consumeStream_contents]
    simp [consumeStream]

/-- C3 counterexample: a stream that contains an `error` event is not
surfaced — `sendChatMessage` resolves normally with only the callbacks
for the events before the error, as if the answer had finished. -/
theorem chat_error_event_not_surfaced :
    (StreamEvent.error "generation failed") ∈
        [StreamEvent.sources ["doc.pdf"], .content "The sky", .error "generation failed"] ∧
    (sendChatMessage "q" []
        ⟨200, none,
          some [StreamEvent.sources ["doc.pdf"], .content "The sky",
                .error "generation failed"]⟩
        ⟨200, none, none⟩).1 =
      .ok [Call.onSources ["doc.pdf"], Call.onContent "The sky"] := by
  exact ⟨by decide, rfl⟩

/-- C3 amended: the pipeline (per the spec) ends a failing stream with
an `error` event and emits no `done` after it; the client stream
consumer, however, skips `error` events without invoking any callback,
and `sendChatMessage` resolves normally on any ok response, so the
mid-stream failure is not surfaced to the caller. -/
theorem chat_error_semantics (docs fragments : List String) (msg : String) :
    (ragStreamFailing docs fragments msg).getLast? = some (.error msg) ∧
    StreamEvent.done ∉ ragStreamFailing docs fragments msg ∧
    (∀ evs : List StreamEvent, consumeStream (evs ++ [.error msg]) = consumeStream evs) ∧
    (∀ (message : String) (history : List Message)
        (v1 legacy : Resp (Option (List StreamEvent))) (evs : List StreamEvent),
      v1.status ≠ 404 → v1.isOk = true → v1.okBody = some evs →
      (sendChatMessage message history v1 legacy).1 = .ok (consumeStream evs)) := by
  refine ⟨?_, ?_, ?_, ?_⟩
  · show (StreamEvent.sources docs :: (fragments.map .content ++ [.error msg])).getLast? = _
    rw [← List.cons_append, List.getLast?_concat]
  · intro hmem
    simp [ragStreamFailing] at hmem
  · intro evs
    rw [consumeStream_append]
    simp [consumeStream]
  · intro message history v1 legacy evs h404 hok hbody
    unfold sendChatMessage
    simp [h404, hok, hbody]

/-- Witness for C3 amended at a concrete input: an ok response whose
stream ends in an `error` event still resolves normally. -/
theorem chat_error_semantics_witness :
    (sendChatMessage "q" []
        ⟨200, none, some [StreamEvent.sources ["d.pdf"], .error "boom"]⟩
        ⟨200, none, none⟩).1 =
      .ok (consumeStream [StreamEvent.sources ["d.pdf"], .error "boom"]) :=
  (chat_error_semantics ["d.pdf"] [] "boom").2.2.2 "q" []
    ⟨200, none, some [StreamEvent.sources ["d.pdf"], .error "boom"]⟩
    ⟨200, none, none⟩ [StreamEvent.sources ["d.pdf"], .error "boom"]
    (by decide) (by decide) rfl

/-- The number of segments the sliding-window walk produces, as a
function of the remaining text length: none for empty text, one when
the text fits in a single window, and otherwise one plus the count for
the text with the first step removed, which closes to a ceiling
division.  Proved by induction on a bound of the text length. -/
theorem chunkWalk_length (size step : Nat) (h : 0 < step) (hss : step ≤ size) :
    ∀ (n : Nat) (t : List Char), t.length ≤ n →
      (chunkWalk size step h t).length =
        if t.length = 0 then 0
        else if t.length ≤ size then 1
        else (t.length - size + step - 1) / step + 1 := by
  intro n
  induction n with
  | zero =>
    intro t ht
    have ht0 : t = [] := List.eq_nil_of_length_eq_zero (Nat.le_zero.mp ht)
    subst ht0
    rw [chunkWalk]
    simp
  | succ n ih =>
    intro t ht
    by_cases hle : t.length ≤ size
    · rw [chunkWalk, if_pos hle]
      by_cases hnil : t = []
      · subst hnil; simp
      · rw [if_neg hnil]
        have hpos : t.length ≠ 0 := fun hc => hnil (List.eq_nil_of_length_eq_zero hc)
        simp [hpos, hle]
    · rw [chunkWalk, if_neg hle]
      have hgt : size < t.length := Nat.lt_of_not_le hle
      have hdlen : (t.drop step).length = t.length - step := List.length_drop step t
      have hrec := ih (t.drop step) (by omega)
      rw [List.length_cons, hrec, hdlen]
      have hne0 : ¬ (t.length - step = 0) := by omega
      rw [if_neg hne0]
      by_cases hfit : t.length - step ≤ size
      · rw [if_pos hfit]
        have hdiv1 : (t.length - size + step - 1) / step = 1 :=
          Nat.div_eq_of_lt_le (by omega) (by omega)
        rw [if_neg (show ¬ t.length = 0 by omega), if_neg hle, hdiv1]
      · rw [if_neg hfit]
        rw [if_neg (show ¬ t.length = 0 by omega), if_neg hle]
        have harith : t.length - size + step - 1 = (t.length - step - size + step - 1) + step := by
          omega
        rw [harith, Nat.add_div_right _ h]

/-- C4: for valid parameters the chunker produces, on text longer than
`size`, exactly the ceiling of `(len - overlap) / (size - overlap)`
segments (written with the natural-number ceiling-division identity
`ceil(a/b) = (a + b - 1) / b`), exactly one segment — the whole text —
for non-empty text of at most `size` characters, and no segments for
empty text; `overlap >= size` is rejected as a configuration error
before any processing. -/
theorem chunkText_spec (size overlap : Nat) (t : List Char) :
    (size ≤ overlap →
      chunkText size overlap t = .error "chunk overlap must be smaller than chunk size") ∧
    (overlap < size →
      ∃ cs, chunkText size overlap t = .ok cs ∧
        (t.length = 0 → cs = []) ∧
        (0 < t.length → t.length ≤ size → cs = [t]) ∧
        (size < t.length →
          cs.length = (t.length - overlap + (size - overlap) - 1) / (size - overlap))) := by
  constructor
  · intro h
    rw [chunkText, dif_pos h]
  · intro h
    refine ⟨chunkWalk size (size - overlap) (by omega) t, ?_, ?_, ?_, ?_⟩
    · rw [chunkText, dif_neg (by omega)]
    · intro hlen0
      have ht0 : t = [] := List.eq_nil_of_length_eq_zero hlen0
      subst ht0
      rw [chunkWalk]
      simp
    · intro hpos hle
      rw [chunkWalk, if_pos hle,
        if_neg (fun hc => by rw [hc] at hpos; exact Nat.lt_irrefl 0 hpos)]
    · intro hgt
      rw [chunkWalk_length size (size - overlap) (by omega) (by omega) t.length t le_rfl]
      rw [if_neg (by omega), if_neg (by omega)]
      have harith : t.length - overlap + (size - overlap) - 1 =
          (t.length - size + (size - overlap) - 1) + (size - overlap) := by
        omega
      rw [harith, Nat.add_div_right _ (by omega)]

/-- Witness for C4 at the concrete input of the spec test section: a
2500-character text with chunk size 1000 and overlap 200 yields exactly
3 segments, since `ceil(2300 / 800) = 3`. -/
theorem chunkText_spec_witness :
    ∃ cs, chunkText 1000 200 (List.replicate 2500 'a') = .ok cs ∧ cs.length = 3 := by
  obtain ⟨-, h⟩ := chunkText_spec 1000 200 (List.replicate 2500 'a')
  obtain ⟨cs, hok, -, -, hlen⟩ := h (by omega)
  have hrep : (List.replicate 2500 'a').length = 2500 := List.length_replicate ..
  refine ⟨cs, hok, ?_⟩
  rw [hlen (by rw [hrep]; omega), hrep]

/-- C5: `uploadDocument` either resolves with the parsed
`IngestResponse` record of the response it settled on (v1, or legacy
after a v1 404) — and only when that response is ok — or rejects with
the error message built from the server detail with its two documented
fallbacks; it never resolves on a non-ok response. -/
theorem uploadDocument_resolves_or_rejects (v1 legacy : Resp IngestResponse) :
    ((uploadDocument v1 legacy).1 = .ok (if v1.status = 404 then legacy else v1).okBody ∧
      (if v1.status = 404 then legacy else v1).isOk = true) ∨
    ((uploadDocument v1 legacy).1 =
        .error (errMessage (if v1.status = 404 then legacy else v1).errBody
          "Upload failed" "Failed to upload document") ∧
      (if v1.status = 404 then legacy else v1).isOk = false) := by
  by_cases h : v1.status = 404
  · cases hok : legacy.isOk
    · exact .inr ⟨by simp [uploadDocument, h, hok], by simp [h, hok]⟩
    · exact .inl ⟨by simp [uploadDocument, h, hok], by simp [h, hok]⟩
  · cases hok : v1.isOk
    · exact .inr ⟨by simp [uploadDocument, h, hok], by simp [h, hok]⟩
    · exact .inl ⟨by simp [uploadDocument, h, hok], by simp [h, hok]⟩

/-- C6: the store-level `delete_document` (spec-modelled) removes the
document and all its chunks in one atomic update and reports
`{document_id, chunks_deleted}`, or fails with `NotFoundError` exactly
when the id is absent; the client `deleteDocument` rejects with the
server detail exactly when the HTTP response is not ok. -/
theorem deleteDocument_spec (docId : String) (s : Store) (r : Resp DeleteResponse) :
    ((∃ d ∈ s.docs, d.id = docId) →
      ∃ res s', deleteDocumentStore docId s = .ok (res, s') ∧
        res.document_id = docId ∧
        res.chunks_deleted = (s.chunks.filter (fun c => c.docId = docId)).length ∧
        s'.docs = s.docs.filter (fun d => d.id ≠ docId) ∧
        s'.chunks = s.chunks.filter (fun c => c.docId ≠ docId) ∧
        (∀ d ∈ s'.docs, d.id ≠ docId) ∧
        (∀ c ∈ s'.chunks, c.docId ≠ docId)) ∧
    ((¬ ∃ d ∈ s.docs, d.id = docId) → deleteDocumentStore docId s = .error .notFound) ∧
    ((∃ resp, (deleteDocument r).1 = .ok resp) ↔ r.isOk = true) ∧
    (r.isOk = false →
      (deleteDocument r).1 =
        .error (errMessage r.errBody "Failed to delete document" "Failed to delete document")) := by
  refine ⟨?_, ?_, ?_, ?_⟩
  · rintro ⟨d, hd, hid⟩
    have hany : s.docs.any (fun d => d.id = docId) = true :=
      List.any_eq_true.mpr ⟨d, hd, by simp [hid]⟩
    refine ⟨_, _, by rw [deleteDocumentStore, if_pos hany], rfl, rfl, rfl, rfl, ?_, ?_⟩
    · intro d hd
      have := List.mem_filter.mp hd
      simpa using this.2
    · intro c hc
      have := List.mem_filter.mp hc
      simpa using this.2
  · intro hno
    rw [deleteDocumentStore, if_neg]
    intro hany
    obtain ⟨d, hd, hid⟩ := List.any_eq_true.mp hany
    exact hno ⟨d, hd, by simpa using hid⟩
  · cases hok : r.isOk <;> simp [deleteDocument, hok]
  · intro hok
    simp [deleteDocument, hok]

/-- Witness for C6 at a concrete input: a store holding one document
with two chunks, deleted by id; and a concrete 500 response rejected by
the client. -/
theorem deleteDocument_spec_witness :
    (∃ res s', deleteDocumentStore "d1" ⟨[⟨"d1", "a.pdf", 0⟩], [⟨"d1", 0, "x"⟩, ⟨"d1", 1, "y"⟩]⟩ =
        .ok (res, s') ∧ res.chunks_deleted = 2) ∧
    (deleteDocument (⟨500, some (some "boom"), ⟨true, "d1", 2⟩⟩ : Resp DeleteResponse)).1 =
      .error "boom" := by
  have h := deleteDocument_spec "d1" ⟨[⟨"d1", "a.pdf", 0⟩], [⟨"d1", 0, "x"⟩, ⟨"d1", 1, "y"⟩]⟩
    (⟨500, some (some "boom"), ⟨true, "d1", 2⟩⟩ : Resp DeleteResponse)
  obtain ⟨res, s', hok, -, hcount, -⟩ := h.1 ⟨⟨"d1", "a.pdf", 0⟩, by decide, rfl⟩
  refine ⟨⟨res, s', hok, ?_⟩, ?_⟩
  · rw [hcount]; decide
  · have := h.2.2.2 (by decide)
    simpa using this

/-- C7: the store-level `stats` (spec-modelled) is a pure read — it
leaves the store unchanged, and invoking it again on the state it
leaves behind returns the identical `{documents, chunks}` counts. -/
theorem stats_idempotent (s : Store) :
    (statsStore s).2 = s ∧
    (statsStore ((statsStore s).2)).1 = (statsStore s).1 ∧
    (statsStore s).1 = ⟨s.docs.length, s.chunks.length⟩ :=
  ⟨rfl, rfl, rfl⟩

/-- C8: `processFile` hands the file to `uploadDocument` exactly when
the lowercased name ends in `.pdf` and the size is at most
`50 * 1024 * 1024` bytes; otherwise it records the matching error entry
and makes no request. -/
theorem processFile_guard (name : String) (size : Nat) :
    (processFile name size = .upload ↔
      lowerEndsWithPdf name = true ∧ size ≤ 50 * 1024 * 1024) ∧
    (lowerEndsWithPdf name = false →
      processFile name size = .reject "Only PDF files are supported") ∧
    (lowerEndsWithPdf name = true → 50 * 1024 * 1024 < size →
      processFile name size = .reject "File size exceeds 50MB limit") := by
  refine ⟨?_, ?_, ?_⟩
  · constructor
    · intro h
      cases hp : lowerEndsWithPdf name
      · rw [processFile] at h
        simp [hp] at h
      · by_cases hs : size > 50 * 1024 * 1024
        · rw [processFile] at h
          simp [hp, hs] at h
        · exact ⟨rfl, by omega⟩
    · rintro ⟨hp, hs⟩
      rw [processFile]
      simp [hp, Nat.not_lt.mpr hs]
  · intro hp
    rw [processFile]
    simp [hp]
  · intro hp hs
    rw [processFile]
    simp [hp, hs]

/-- Witness for C8 at concrete inputs: a non-PDF name is rejected for
its type, an oversized PDF for its size. -/
theorem processFile_guard_witness :
    processFile "notes.txt" 10 = .reject "Only PDF files are supported" ∧
    processFile "Report.PDF" (50 * 1024 * 1024 + 1) = .reject "File size exceeds 50MB limit" :=
  ⟨(processFile_guard "notes.txt" 10).2.1 (by decide),
   (processFile_guard "Report.PDF" (50 * 1024 * 1024 + 1)).2.2 (by decide) (by omega)⟩

/-- C9: the v1-to-legacy fallback is asymmetric — `uploadDocument`,
`sendChatMessage` and `listDocuments` contact the legacy endpoint
exactly when the v1 response has status 404 and contact only v1
otherwise (any other failure rejects after the single request), while
`deleteDocument` and `getStats` contact only the v1 endpoint and reject
on a 404 with no fallback request. -/
theorem endpoint_fallback_asymmetry
    (uv1 ulg : Resp IngestResponse)
    (cv1 clg : Resp (Option (List StreamEvent)))
    (lv1 llg : Resp (List DocumentInfo))
    (dr : Resp DeleteResponse) (sr : Resp Stats)
    (message : String) (history : List Message) :
    ((uploadDocument uv1 ulg).2 =
      if uv1.status = 404 then [.v1, .legacy] else [.v1]) ∧
    ((sendChatMessage message history cv1 clg).2.map Prod.fst =
      if cv1.status = 404 then [.v1, .legacy] else [.v1]) ∧
    ((listDocuments lv1 llg).2 =
      if lv1.status = 404 then [.v1, .legacy] else [.v1]) ∧
    ((deleteDocument dr).2 = [.v1]) ∧
    ((getStats sr).2 = [.v1]) ∧
    (uv1.status ≠ 404 → uv1.isOk = false →
      ∃ m, (uploadDocument uv1 ulg).1 = .error m) ∧
    (cv1.status ≠ 404 → cv1.isOk = false →
      ∃ m, (sendChatMessage message history cv1 clg).1 = .error m) ∧
    (lv1.status ≠ 404 → lv1.isOk = false →
      ∃ m, (listDocuments lv1 llg).1 = .error m) ∧
    (dr.status = 404 → ∃ m, (deleteDocument dr).1 = .error m) ∧
    (sr.status = 404 → ∃ m, (getStats sr).1 = .error m) := by
  refine ⟨?_, ?_, ?_, ?_, ?_, ?_, ?_, ?_, ?_, ?_⟩
  · unfold uploadDocument
    by_cases h : uv1.status = 404 <;> simp [h] <;> split <;> rfl
  · rw [sendChatMessage_trace]
    by_cases h : cv1.status = 404 <;> simp [h]
  · unfold listDocuments
    by_cases h : lv1.status = 404 <;> simp [h] <;> split <;> rfl
  · unfold deleteDocument
    split <;> rfl
  · unfold getStats
    split <;> rfl
  · intro h hok
    exact ⟨errMessage uv1.errBody "Upload failed" "Failed to upload document",
      by simp [uploadDocument, h, hok]⟩
  · intro h hok
    exact ⟨errMessage cv1.errBody "Chat failed" "Failed to get response",
      by simp [sendChatMessage, h, hok]⟩
  · intro h hok
    exact ⟨errMessage lv1.errBody "Failed to list documents" "Failed to list documents",
      by simp [listDocuments, h, hok]⟩
  · intro h
    have hok : dr.isOk = false := by simp [Resp.isOk, h]
    exact ⟨errMessage dr.errBody "Failed to delete document" "Failed to delete document",
      by simp [deleteDocument, hok]⟩
  · intro h
    have hok : sr.isOk = false := by simp [Resp.isOk, h]
    exact ⟨errMessage sr.errBody "Failed to get stats" "Failed to get stats",
      by simp [getStats, hok]⟩

/-- Witness for C9 at concrete inputs: a 404 on the v1 delete endpoint
is rejected with no fallback request, and a chat request whose v1
response is a 500 is rejected after the single request. -/
theorem endpoint_fallback_asymmetry_witness :
    (deleteDocument (⟨404, none, ⟨true, "d", 0⟩⟩ : Resp DeleteResponse)).2 = [.v1] ∧
    (∃ m, (deleteDocument (⟨404, none, ⟨true, "d", 0⟩⟩ : Resp DeleteResponse)).1 = .error m) ∧
    (∃ m, (sendChatMessage "q" []
        (⟨500, some (some "oops"), none⟩ : Resp (Option (List StreamEvent)))
        (⟨200, none, none⟩ : Resp (Option (List StreamEvent)))).1 = .error m) := by
  have h := endpoint_fallback_asymmetry
    (⟨200, none, ⟨true, "d", "f", 0, "m"⟩⟩ : Resp IngestResponse)
    (⟨200, none, ⟨true, "d", "f", 0, "m"⟩⟩ : Resp IngestResponse)
    (⟨500, some (some "oops"), none⟩ : Resp (Option (List StreamEvent)))
    (⟨200, none, none⟩ : Resp (Option (List StreamEvent)))
    (⟨200, none, []⟩ : Resp (List DocumentInfo))
    (⟨200, none, []⟩ : Resp (List DocumentInfo))
    (⟨404, none, ⟨true, "d", 0⟩⟩ : Resp DeleteResponse)
    (⟨200, none, ⟨0, 0⟩⟩ : Resp Stats) "q" []
  exact ⟨h.2.2.2.1, h.2.2.2.2.2.2.2.2.1 rfl,
    h.2.2.2.2.2.2.1 (by decide) (by decide)⟩

/-- The first element a `dropWhile` leaves behind fails the predicate. -/
theorem dropWhile_head_false (p : Char → Bool) :
    ∀ (l : List Char) (c : Char) (rest : List Char),
      l.dropWhile p = c :: rest → p c = false := by
  intro l
  induction l with
  | nil =>
    intro c rest h
    simp [List.dropWhile] at h
  | cons a as ih =>
    intro c rest h
    rw [List.dropWhile_cons] at h
    by_cases hpa : p a = true
    · rw [if_pos hpa] at h
      exact ih c rest h
    · rw [if_neg hpa] at h
      injection h with h1 _
      subst h1
      exact Bool.not_eq_true _ ▸ hpa

/-- Trimming is idempotent: the front of a both-ends-trimmed string is
a non-whitespace character (it is a prefix of a `dropWhile` result),
and so is its back, so trimming again changes nothing. -/
theorem jsTrim_idem (s : String) : jsTrim (jsTrim s) = jsTrim s := by
  unfold jsTrim
  refine congrArg String.mk ?_
  show List.rdropWhile jsWhitespace
      (List.dropWhile jsWhitespace
        (List.rdropWhile jsWhitespace (s.data.dropWhile jsWhitespace))) = _
  obtain ⟨t, ht⟩ := List.rdropWhile_prefix jsWhitespace (s.data.dropWhile jsWhitespace)
  have hfix : List.dropWhile jsWhitespace
      (List.rdropWhile jsWhitespace (s.data.dropWhile jsWhitespace)) =
      List.rdropWhile jsWhitespace (s.data.dropWhile jsWhitespace) := by
    cases hc : List.rdropWhile jsWhitespace (s.data.dropWhile jsWhitespace) with
    | nil => rfl
    | cons c l2 =>
      have hl1cons : s.data.dropWhile jsWhitespace = c :: (l2 ++ t) := by
        rw [← ht, hc]
        rfl
      have hpc : jsWhitespace c = false := dropWhile_head_false jsWhitespace s.data c _ hl1cons
      rw [List.dropWhile_cons, if_neg (by simp [hpc])]
  rw [hfix, List.rdropWhile_idempotent]

/-- A message that survives the `onContent` update with the user role
was already in the list: the update only rewrites the last message and
only when it has the assistant role. -/
theorem appendToLast_user_mem (chunk : String) :
    ∀ (ms : List Message) (m : Message),
      m ∈ appendToLast chunk ms → m.role = .user → m ∈ ms := by
  intro ms
  induction ms with
  | nil =>
    intro m hm
    simp [appendToLast] at hm
  | cons a rest ih =>
    intro m hm hrole
    cases rest with
    | nil =>
      by_cases ha : a.role = Role.assistant
      · simp [appendToLast, ha] at hm
        rw [hm] at hrole
        simp at hrole
      · simp [appendToLast, ha] at hm
        simp [hm]
    | cons b rest2 =>
      rw [show appendToLast chunk (a :: b :: rest2) =
            a :: appendToLast chunk (b :: rest2) from rfl] at hm
      rcases List.mem_cons.mp hm with h | h
      · exact h ▸ List.mem_cons_self a _
      · exact List.mem_cons_of_mem a (ih m h hrole)

/-- Every step of the chat page state machine preserves the
conversation invariant. -/
theorem uiStep_preserves_invariant (st : UIState) (e : UIEvent) :
    userMessagesNonempty st.messages → userMessagesNonempty (uiStep st e).messages := by
  intro hinv
  cases e with
  | submit input =>
    by_cases hguard : jsTrim input = "" ∨ st.isLoading = true
    · have : uiStep st (.submit input) = st := by
        rcases hguard with h | h <;> simp [uiStep, h]
      rw [this]
      exact hinv
    · push_neg at hguard
      have h1 : ¬ (jsTrim input = "") := hguard.1
      have h2 : st.isLoading = false := by
        cases hld : st.isLoading
        · rfl
        · exact absurd hld hguard.2
      intro m hm hrole
      rw [show uiStep st (.submit input) =
            ⟨st.messages ++ [⟨.user, jsTrim input⟩, ⟨.assistant, ""⟩], true⟩ from by
          simp [uiStep, h1, h2]] at hm
      simp only [List.mem_append, List.mem_cons, List.not_mem_nil, or_false] at hm
      rcases hm with hm | hm | hm
      · exact hinv m hm hrole
      · rw [hm]
        show jsTrim (jsTrim input) ≠ ""
        rw [jsTrim_idem]
        exact h1
      · rw [hm] at hrole
        simp at hrole
  | streamChunk t =>
    intro m hm hrole
    exact hinv m (appendToLast_user_mem t st.messages m hm hrole) hrole
  | streamDone =>
    exact hinv
  | streamError =>
    intro m hm hrole
    exact hinv m (List.mem_filter.mp hm).1 hrole

/-- C10: every user-role message in the chat page conversation list has
non-empty trimmed content, for any sequence of page events; the submit
step changes the list only when the trimmed input is non-empty and no
request is in flight, and the failure step removes every message whose
content is the empty string. -/
theorem chat_user_messages_invariant :
    (∀ evs : List UIEvent, userMessagesNonempty (runUI evs).messages) ∧
    (∀ (st : UIState) (input : String),
      (jsTrim input = "" ∨ st.isLoading = true) → uiStep st (.submit input) = st) ∧
    (∀ st : UIState,
      (uiStep st .streamError).messages = st.messages.filter (fun m => m.content ≠ "")) := by
  refine ⟨?_, ?_, ?_⟩
  · intro evs
    have hgen : ∀ (evs : List UIEvent) (st : UIState),
        userMessagesNonempty st.messages →
        userMessagesNonempty (evs.foldl uiStep st).messages := by
      intro evs
      induction evs with
      | nil => intro st h; exact h
      | cons e rest ih =>
        intro st h
        exact ih (uiStep st e) (uiStep_preserves_invariant st e h)
    exact hgen evs initialUIState (by intro m hm; simp [initialUIState] at hm)
  · intro st input hguard
    rcases hguard with h | h <;> simp [uiStep, h]
  · intro st
    rfl

/-- Witness for C10 at a concrete input: after a submit, a streamed
chunk and a failing request, no empty user message is present, and a
submit while a request is in flight changes nothing. -/
theorem chat_user_messages_invariant_witness :
    userMessagesNonempty
      (runUI [.submit " hi ", .streamChunk "ok", .streamError]).messages ∧
    uiStep ⟨[], true⟩ (.submit "hi") = ⟨[], true⟩ :=
  ⟨chat_user_messages_invariant.1 [.submit " hi ", .streamChunk "ok", .streamError],
   chat_user_messages_invariant.2.1 ⟨[], true⟩ "hi" (.inr rfl)⟩

end Chatbot
